import Mathlib

/-!
Verification of the fast-lazyload coordinator (src/index.ts) against its
natural-language specification.

The development shallowly embeds the library's data model and operations:
DOM elements become a record of the fields the code reads and writes
(node name, attribute list, CSSOM background-image, src/srcset, class list,
bounding rectangle); the IntersectionObserver callback becomes a state
transformer over a watch set together with an emitted action trace; the
MutationObserver classifier and the entry-point capability branch become
total functions.  JavaScript truthiness (`||` fallbacks, truthy strings),
`dataset` camel-casing of `data-*` attribute names, and the coercion of
`undefined` to the string "undefined" on `src` assignment are modelled
explicitly, since several claims hinge on them.
-/

namespace FastLazyload

/-- Result of `getBoundingClientRect()`: the element's bounding rectangle in
viewport coordinates.  Only the four edges read by the code are modelled. -/
structure Rect where
  top : Int
  bottom : Int
  left : Int
  right : Int
deriving DecidableEq

/-- The `LazyloadOptions` configuration record (src/index.ts line 6):
lifecycle CSS class names and the marker attribute name.  The source field
named `on` is rendered `onCls` here because `on` is a reserved word in
Lean. -/
structure LazyloadOptions where
  loading : String
  failed : String
  onCls : String
  loaded : String
  attr : String
deriving DecidableEq

/-- The compiled-in defaults used when `window.lazyloadOptions` is absent
(src/index.ts line 7). -/
def defaultOptions : LazyloadOptions :=
  { loading := "lazy-loading", failed := "lazy-failed", onCls := "lazy",
    loaded := "lazy-loaded", attr := "lazy" }

/-- A DOM element as seen by the coordinator: the node name, its attribute
list (name/value pairs in document order), the CSSOM `style.backgroundImage`
value ("" when unset, mirroring the empty string a browser reports), the
reflected `src` and `srcset` IDL attributes (`none` = never assigned), the
class list, and the bounding rectangle. -/
structure Elem where
  nodeName : String
  attrs : List (String × String)
  styleBackgroundImage : String
  src : Option String
  srcset : Option String
  classes : List String
  rect : Rect
deriving DecidableEq

/-- `el.getAttribute(name)`: first attribute with the given name. -/
def getAttribute (el : Elem) (name : String) : Option String :=
  (el.attrs.find? (fun p => p.1 == name)).map (fun p => p.2)

/-- `el.hasAttribute(name)`. -/
def hasAttribute (el : Elem) (name : String) : Bool :=
  (getAttribute el name).isSome

/-- `el.setAttribute(name, value)`: replace in place when present, else
append at the end of the attribute list. -/
def setAttribute (el : Elem) (name value : String) : Elem :=
  if hasAttribute el name = true then
    { el with attrs := el.attrs.map (fun p => if p.1 = name then (name, value) else p) }
  else
    { el with attrs := el.attrs ++ [(name, value)] }

/-- `el.removeAttribute(name)`. -/
def removeAttribute (el : Elem) (name : String) : Elem :=
  { el with attrs := el.attrs.filter (fun p => !(p.1 == name)) }

/-- The camel-casing a browser applies to turn the suffix of a `data-*`
attribute name into a `dataset` key: each "-" followed by a lowercase
letter is dropped and the letter upper-cased. -/
def camelize : List Char → List Char
  | [] => []
  | '-' :: c :: rest =>
      if c.isLower then Char.toUpper c :: camelize rest
      else '-' :: camelize (c :: rest)
  | c :: rest => c :: camelize rest

/-- The `dataset` key exposed for an attribute name: defined exactly for
names starting with "data-", as the camel-cased remainder. -/
def datasetKey (name : String) : Option String :=
  match name.toList with
  | 'd' :: 'a' :: 't' :: 'a' :: '-' :: rest => some (String.mk (camelize rest))
  | _ => none

/-- `el.dataset[key]`: value of the (first) attribute whose dataset key is
`key`. -/
def dataset (el : Elem) (key : String) : Option String :=
  (el.attrs.find? (fun p => datasetKey p.1 == some key)).map (fun p => p.2)

/-- `key in el.dataset`. -/
def datasetHas (el : Elem) (key : String) : Bool :=
  (dataset el key).isSome

/-- JavaScript string coercion applied when an `undefined` value reaches a
string-reflected IDL attribute such as `src`: `String(undefined)` is the
string "undefined". -/
def jsString : Option String → String
  | some s => s
  | none => "undefined"

/-- The windows inner size together with the document root client size, as
read by the viewport predicate.  `none` models an `undefined` reading. -/
structure Viewport where
  innerWidth : Option Int
  innerHeight : Option Int
  clientWidth : Int
  clientHeight : Int
deriving DecidableEq

/-- JavaScript `a || b` on a possibly-undefined number: `b` exactly when `a`
is `undefined` or `0` (the falsy numbers reachable here). -/
def jsOrInt : Option Int → Int → Int
  | none, b => b
  | some a, b => if a = 0 then b else a

/-- `isElementInViewport` (src/index.ts lines 15-25): partial-visibility
test of the bounding rectangle against the viewport, with the window inner
size falling back to the document root client size via `||`. -/
def isElementInViewport (vp : Viewport) (el : Elem) : Bool :=
  decide (el.rect.bottom > 0) &&
  decide (el.rect.right > 0) &&
  decide (el.rect.left < jsOrInt vp.innerWidth vp.clientWidth) &&
  decide (el.rect.top < jsOrInt vp.innerHeight vp.clientHeight)

/-- Viewport width as the spec words it: the window's inner width unless
that is zero or undefined, in which case the document root's client width. -/
def viewportWidthSpec (vp : Viewport) : Int :=
  match vp.innerWidth with
  | none => vp.clientWidth
  | some w => if w = 0 then vp.clientWidth else w

/-- Viewport height as the spec words it. -/
def viewportHeightSpec (vp : Viewport) : Int :=
  match vp.innerHeight with
  | none => vp.clientHeight
  | some h => if h = 0 then vp.clientHeight else h

/-- `unveil` (src/index.ts lines 32-41), the Reveal Operation: rewrite a
non-empty inline background image to `url(dataset.lazy)`, otherwise assign
`src = dataset.lazy` (note: the fixed dataset key "lazy", not the
configured one), then remove the configurable `data-` marker attribute. -/
def unveil (opts : LazyloadOptions) (el : Elem) : Elem :=
  removeAttribute
    (if hasAttribute el "style" = true ∧ el.styleBackgroundImage ≠ "" then
      { el with styleBackgroundImage := "url(" ++ jsString (dataset el "lazy") ++ ")" }
    else
      { el with src := some (jsString (dataset el "lazy")) })
    ("data-" ++ opts.attr)

/-- `unveil` of the srcset-aware variant of index.ts (src/unnamed/part_001
lines 32-45): reads the pending URL from the configured dataset key, and in
the src branch additionally evaluates
`if ([Options.attribute] + '-srcset' in dataset) srcset = dataset[Options.attribute] + '-srcset'`:
the membership test coerces the singleton array to the string
`attribute ++ "-srcset"`, and the assigned value is the string
concatenation of the pending URL with "-srcset". -/
def unveilSrcset (opts : LazyloadOptions) (el : Elem) : Elem :=
  removeAttribute
    (if hasAttribute el "style" = true ∧ el.styleBackgroundImage ≠ "" then
      { el with styleBackgroundImage :=
          "url(" ++ jsString (dataset el opts.attr) ++ ")" }
    else
      let el1 := { el with src := some (jsString (dataset el opts.attr)) }
      if datasetHas el1 (opts.attr ++ "-srcset") = true then
        { el1 with srcset := some (jsString (dataset el1 opts.attr) ++ "-srcset") }
      else el1)
    ("data-" ++ opts.attr)

/-- `fallbackNode` (src/index.ts lines 76-79): reveal, then add the
`loaded` class directly. -/
def addClass (c : String) (cs : List String) : List String :=
  if c ∈ cs then cs else cs ++ [c]

/-- `classList.remove`. -/
def removeClass (c : String) (cs : List String) : List String :=
  cs.filter (fun x => !(x == c))

def fallbackNode (opts : LazyloadOptions) (el : Elem) : Elem :=
  let el1 := unveil opts el
  { el1 with classes := addClass opts.loaded el1.classes }

/-- The script element constructed by the `lazyscript` window-load handler
(src/index.ts lines 85-99): a fresh `script` node that receives copies of
exactly those attributes of the original whose name is
`"data-" ++ Options.attribute`, and whose `src` is assigned from the
original's `dataset.lazy` (the fixed key used at line 94). -/
def lazyscriptNew (opts : LazyloadOptions) (node : Elem) : Elem :=
  { nodeName := "SCRIPT",
    attrs := node.attrs.filter (fun p => p.1 == "data-" ++ opts.attr),
    styleBackgroundImage := "",
    src := some (jsString (dataset node "lazy")),
    srcset := none,
    classes := [],
    rect := ⟨0, 0, 0, 0⟩ }

/-- `parent.insertBefore(new, ref)` restricted to one child list: insert
`new` immediately before the first occurrence of `ref`. -/
def insertBeforeList (children : List Elem) (ref new : Elem) : List Elem :=
  match children with
  | [] => []
  | c :: rest =>
      if c = ref then new :: c :: rest
      else c :: insertBeforeList rest ref new

/-- `node.remove()`: delete the first occurrence of the node from its
parent's child list. -/
def removeNode (children : List Elem) (node : Elem) : List Elem :=
  match children with
  | [] => []
  | c :: rest => if c = node then rest else c :: removeNode rest node

/-- Effect on the parent's child list when the handler registered by
`lazyscript` fires on the window `load` event (src/index.ts lines 87-98):
build the new script element, insert it before the original node, then
remove the original. -/
def lazyscriptFire (opts : LazyloadOptions) (node : Elem) (children : List Elem) :
    List Elem :=
  removeNode (insertBeforeList children node (lazyscriptNew opts node)) node

/-- Running the window `load` event: fire every handler registered through
`lazyscript`, in registration order, over the parent child list. -/
def runWindowLoad (opts : LazyloadOptions) (regs : List Elem)
    (children : List Elem) : List Elem :=
  regs.foldl (fun ch node => lazyscriptFire opts node ch) children

/-- Outcome of the MutationObserver callback for one added node
(src/index.ts lines 124-140): the node is ignored (not an element node or
no marker), handed to `lazyscript` (script tag), revealed immediately (in
viewport), or registered with the IntersectionObserver (out of viewport). -/
inductive MutResult where
  | ignored
  | lazyscriptReg (node : Elem)
  | revealed (node : Elem)
  | observe (node : Elem)
deriving DecidableEq

/-- The MutationObserver routing for one added node (src/index.ts lines
124-140): element nodes (`nodeType === 1`) matching the marker selector are
classified; scripts go to `lazyscript`; in-viewport nodes are unveiled and,
for `IMG`/`VIDEO` without a `fetchpriority` attribute, get
`fetchpriority="high"`; all other matching nodes are observed. -/
def processAddedNode (opts : LazyloadOptions) (vp : Viewport)
    (nodeType : Nat) (el : Elem) : MutResult :=
  if nodeType = 1 ∧ hasAttribute el ("data-" ++ opts.attr) = true then
    if el.nodeName = "SCRIPT" then
      MutResult.lazyscriptReg el
    else if isElementInViewport vp el = true then
      let el1 := unveil opts el
      let el2 :=
        if (el1.nodeName = "IMG" ∨ el1.nodeName = "VIDEO") ∧
            hasAttribute el1 "fetchpriority" = false then
          setAttribute el1 "fetchpriority" "high"
        else el1
      MutResult.revealed el2
    else
      MutResult.observe el
  else
    MutResult.ignored

/-- Effects of the startup enumeration in the observer branch of
`fastLazyLoad` (src/index.ts lines 116-118): the loop over the initially
matching elements calls `lazyObserver.observe` on every one of them and
does nothing else; in particular `lazyscript` is invoked only from the
MutationObserver callback, never from this loop, so no window-load script
registration is recorded here. -/
structure StartupResult where
  watched : List Elem
  scriptRegs : List Elem
deriving DecidableEq

def startupObserve (initial : List Elem) : StartupResult :=
  initial.foldl (fun r el => { r with watched := r.watched ++ [el] })
    { watched := [], scriptRegs := [] }

/-- Platform capabilities tested by the entry point (src/index.ts line
112). -/
structure Platform where
  hasIntersectionObserver : Bool
  hasMutationObserver : Bool
deriving DecidableEq

/-- Result of the entry point: either the observer wiring with its startup
effects, or the synchronous fallback with the final element states. -/
inductive EntryOutcome where
  | observerMode (startup : StartupResult)
  | fallbackMode (els : List Elem)
deriving DecidableEq

/-- `fastLazyLoad` (src/index.ts lines 106-158), restricted to its
synchronous startup behavior: when both observer primitives exist, observe
every initially matching element; otherwise run `fallbackNode` over every
initially matching element. -/
def fastLazyLoad (opts : LazyloadOptions) (plat : Platform)
    (initial : List Elem) : EntryOutcome :=
  if (plat.hasIntersectionObserver && plat.hasMutationObserver) = true then
    EntryOutcome.observerMode (startupObserve initial)
  else
    EntryOutcome.fallbackMode (initial.map (fallbackNode opts))

/-- One `classList` mutation, the only effect a registered load/error
listener body performs. -/
inductive ClassOp where
  | add (c : String)
  | remove (c : String)
deriving DecidableEq

/-- Apply one `classList` operation to a class list. -/
def applyClassOp (cs : List String) : ClassOp → List String
  | ClassOp.add c => addClass c cs
  | ClassOp.remove c => removeClass c cs

/-- Body of a registered listener: the sequence of `classList` operations
it performs when its event fires. -/
def applyListener (eff : List ClassOp) (el : Elem) : Elem :=
  { el with classes := eff.foldl applyClassOp el.classes }

/-- An element under management of the Intersection Coordinator: the DOM
element plus its registered load/error listener bodies (in registration
order) and two instrumentation counters — how many times `unveil` was
invoked on it and how many times `observer.unobserve` was called with it. -/
structure WElem where
  el : Elem
  loadL : List (List ClassOp)
  errorL : List (List ClassOp)
  revealedCount : Nat
  unobsCount : Nat
deriving DecidableEq

/-- State of the Intersection Coordinator: every element's managed state
(total over element identifiers) and the Watch Set of currently observed
element identifiers. -/
structure SysState where
  elems : Nat → WElem
  watched : List Nat

/-- One entry of the batch an IntersectionObserver delivers to its
callback: the intersection flag and the target element identifier. -/
structure Entry where
  isIntersecting : Bool
  target : Nat
deriving DecidableEq

/-- Observable actions of the intersection callback on one element, in the
order the handler performs them. -/
inductive Action where
  | addClassA (t : Nat) (c : String)
  | addListenerA (t : Nat) (event : String) (eff : List ClassOp)
  | revealA (t : Nat)
  | unobserveA (t : Nat)
deriving DecidableEq

/-- Update the managed state of one element identifier. -/
def modifyEl (t : Nat) (f : WElem → WElem) (s : SysState) : SysState :=
  { s with elems := fun i => if i = t then f (s.elems i) else s.elems i }

/-- `entry.target.classList.add(c)`. -/
def stepAddClass (t : Nat) (c : String) (s : SysState) : SysState :=
  modifyEl t (fun w => { w with el := { w.el with classes := addClass c w.el.classes } }) s

/-- `target.addEventListener('load', ...)`: append the listener body. -/
def stepAddLoadListener (t : Nat) (eff : List ClassOp) (s : SysState) : SysState :=
  modifyEl t (fun w => { w with loadL := w.loadL ++ [eff] }) s

/-- `target.addEventListener('error', ...)`: append the listener body. -/
def stepAddErrorListener (t : Nat) (eff : List ClassOp) (s : SysState) : SysState :=
  modifyEl t (fun w => { w with errorL := w.errorL ++ [eff] }) s

/-- `unveil(entry.target)` inside the handler: apply the Reveal Operation
and count the invocation. -/
def stepReveal (opts : LazyloadOptions) (t : Nat) (s : SysState) : SysState :=
  modifyEl t (fun w => { w with el := unveil opts w.el, revealedCount := w.revealedCount + 1 }) s

/-- `observer.unobserve(entry.target)`: remove the target from the Watch
Set (a no-op when it is not watched) and count the call. -/
def stepUnobserve (t : Nat) (s : SysState) : SysState :=
  let s1 := modifyEl t (fun w => { w with unobsCount := w.unobsCount + 1 }) s
  { s1 with watched := s1.watched.filter (fun i => !(i == t)) }

/-- Handling of one IntersectionObserver entry (src/index.ts lines 50-68):
for an intersecting entry, add the `on` class, register the load listener
(whose body adds `loaded` and removes `loading`), register the error
listener (whose body adds `failed`), add the `loading` class, unveil, and
unobserve — in that order — while emitting the corresponding action trace;
a non-intersecting entry is skipped. -/
def stepEntryT (opts : LazyloadOptions) (e : Entry) (s : SysState) :
    SysState × List Action :=
  if e.isIntersecting = true then
    let t := e.target
    let s1 := stepAddClass t opts.onCls s
    let s2 := stepAddLoadListener t [ClassOp.add opts.loaded, ClassOp.remove opts.loading] s1
    let s3 := stepAddErrorListener t [ClassOp.add opts.failed] s2
    let s4 := stepAddClass t opts.loading s3
    let s5 := stepReveal opts t s4
    let s6 := stepUnobserve t s5
    (s6,
      [Action.addClassA t opts.onCls,
       Action.addListenerA t "load" [ClassOp.add opts.loaded, ClassOp.remove opts.loading],
       Action.addListenerA t "error" [ClassOp.add opts.failed],
       Action.addClassA t opts.loading,
       Action.revealA t,
       Action.unobserveA t])
  else (s, [])

/-- State component of one entry step. -/
def stepEntry (opts : LazyloadOptions) (e : Entry) (s : SysState) : SysState :=
  (stepEntryT opts e s).1

/-- `lazyLoadBackgrounds` (src/index.ts lines 49-70): the intersection
callback iterates the delivered batch in order, handling each entry with
`stepEntryT`; the emitted traces are concatenated. -/
def lazyLoadBackgrounds (opts : LazyloadOptions) :
    List Entry → SysState → SysState × List Action
  | [], s => (s, [])
  | e :: rest, s =>
      let p := stepEntryT opts e s
      let q := lazyLoadBackgrounds opts rest p.1
      (q.1, p.2 ++ q.2)

/-- Platform guarantee on a delivered batch: an IntersectionObserver only
delivers entries for targets it currently observes, so every intersecting
entry's target is in the Watch Set at the moment the handler reaches it. -/
def validDelivery (opts : LazyloadOptions) (s : SysState) : List Entry → Bool
  | [] => true
  | e :: rest =>
      (!e.isIntersecting || s.watched.contains e.target) &&
      validDelivery opts (stepEntry opts e s) rest

/-- Number of times the Reveal Operation ran on element `t`. -/
def revOf (s : SysState) (t : Nat) : Nat := (s.elems t).revealedCount

/-- Number of `unobserve` calls issued for element `t`. -/
def unobsOf (s : SysState) (t : Nat) : Nat := (s.elems t).unobsCount

/-- The step sequence the specification prescribes for one intersecting
entry, written from the claim text: add `on`, register the load-success
listener (add `loaded`, remove `loading`), register the load-failure
listener (add `failed`), add `loading`, reveal, unobserve. -/
def claimSequence (opts : LazyloadOptions) (t : Nat) : List Action :=
  [Action.addClassA t opts.onCls,
   Action.addListenerA t "load" [ClassOp.add opts.loaded, ClassOp.remove opts.loading],
   Action.addListenerA t "error" [ClassOp.add opts.failed],
   Action.addClassA t opts.loading,
   Action.revealA t,
   Action.unobserveA t]

/-! Concrete elements and states used to instantiate the theorems. -/

/-- A deferred image: `<img data-lazy="a.png">`, on-screen. -/
def egImg : Elem :=
  { nodeName := "IMG", attrs := [("data-lazy", "a.png")],
    styleBackgroundImage := "", src := none, srcset := none, classes := [],
    rect := ⟨0, 10, 0, 10⟩ }

/-- A deferred background: `<div style="background-image: url(old.png)" data-lazy="b.png">`. -/
def egBg : Elem :=
  { nodeName := "DIV",
    attrs := [("style", "background-image: url(old.png)"), ("data-lazy", "b.png")],
    styleBackgroundImage := "url(old.png)", src := none, srcset := none,
    classes := [], rect := ⟨0, 10, 0, 10⟩ }

/-- A deferred script present at startup: `<script data-lazy="c.js">`. -/
def egScript : Elem :=
  { nodeName := "SCRIPT", attrs := [("data-lazy", "c.js")],
    styleBackgroundImage := "", src := none, srcset := none, classes := [],
    rect := ⟨0, 0, 0, 0⟩ }

/-- A responsive deferred image:
`<img data-lazy="a.png" data-lazy-srcset="a2.png 2x">`. -/
def egSrcset : Elem :=
  { nodeName := "IMG",
    attrs := [("data-lazy", "a.png"), ("data-lazy-srcset", "a2.png 2x")],
    styleBackgroundImage := "", src := none, srcset := none, classes := [],
    rect := ⟨0, 10, 0, 10⟩ }

/-- An image marked with a custom marker attribute: `<img data-custom="a.png">`. -/
def egCustom : Elem :=
  { nodeName := "IMG", attrs := [("data-custom", "a.png")],
    styleBackgroundImage := "", src := none, srcset := none, classes := [],
    rect := ⟨0, 10, 0, 10⟩ }

/-- A configuration overriding the marker attribute name to `custom`. -/
def customOptions : LazyloadOptions :=
  { loading := "lazy-loading", failed := "lazy-failed", onCls := "lazy",
    loaded := "lazy-loaded", attr := "custom" }

/-- A standard viewport: an 800 by 600 window. -/
def egViewport : Viewport :=
  { innerWidth := some 800, innerHeight := some 600,
    clientWidth := 800, clientHeight := 600 }

/-- Coordinator state for the watch-set invariant instantiation: element 0
is `egImg`, watched, with untouched counters. -/
def egSys : SysState :=
  { elems := fun _ => { el := egImg, loadL := [], errorL := [], revealedCount := 0, unobsCount := 0 },
    watched := [0] }

/-- Lifecycle invariant of one element under the Intersection Coordinator:
it is either still watched with no reveal and no unobserve call yet, or no
longer watched with exactly one reveal paired with exactly one unobserve
call. -/
def WatchInv (s : SysState) (t : Nat) : Prop :=
  (t ∈ s.watched ∧ revOf s t = 0 ∧ unobsOf s t = 0) ∨
  (t ∉ s.watched ∧ revOf s t = 1 ∧ unobsOf s t = 1)

/-! Helper lemmas about attribute lists. -/

theorem find?_key_filter_self (l : List (String × String)) (n : String) :
    (l.filter (fun p => !(p.1 == n))).find? (fun p => p.1 == n) = none := by
  rw [List.find?_eq_none]
  intro x hx
  have hkeep := (List.mem_filter.mp hx).2
  simp only [Bool.not_eq_true'] at hkeep
  simp [hkeep]

theorem find?_key_filter_ne (l : List (String × String)) (m n : String) (h : m ≠ n) :
    (l.filter (fun p => !(p.1 == n))).find? (fun p => p.1 == m) =
    l.find? (fun p => p.1 == m) := by
  induction l with
  | nil => rfl
  | cons a l ih =>
    by_cases ha : a.1 = n
    · have hm : (a.1 == m) = false := by
        simp [ha]
        exact fun e => h e.symm
      rw [List.filter_cons, if_neg (by simp [ha]), List.find?_cons_of_neg _ (by simp [hm]), ih]
    · rw [List.filter_cons, if_pos (by simp [ha])]
      by_cases hm : a.1 = m
      · rw [List.find?_cons_of_pos _ (by simp [hm]), List.find?_cons_of_pos _ (by simp [hm])]
      · rw [List.find?_cons_of_neg _ (by simp [hm]), List.find?_cons_of_neg _ (by simp [hm]), ih]

theorem getAttribute_removeAttribute_self (el : Elem) (n : String) :
    getAttribute (removeAttribute el n) n = none := by
  simp [getAttribute, removeAttribute, find?_key_filter_self]

theorem getAttribute_removeAttribute_ne (el : Elem) (m n : String) (h : m ≠ n) :
    getAttribute (removeAttribute el n) m = getAttribute el m := by
  simp [getAttribute, removeAttribute, find?_key_filter_ne _ _ _ h]

/-! Helper lemmas about class lists. -/

theorem mem_addClass_iff (x c : String) (cs : List String) :
    x ∈ addClass c cs ↔ x ∈ cs ∨ x = c := by
  unfold addClass
  by_cases h : c ∈ cs
  · rw [if_pos h]
    exact ⟨Or.inl, fun hx => hx.elim id (fun e => e ▸ h)⟩
  · rw [if_neg h]
    simp

theorem mem_addClass_self (c : String) (cs : List String) : c ∈ addClass c cs :=
  (mem_addClass_iff c c cs).mpr (Or.inr rfl)

theorem mem_addClass_of_mem (x c : String) (cs : List String) (h : x ∈ cs) :
    x ∈ addClass c cs :=
  (mem_addClass_iff x c cs).mpr (Or.inl h)

/-! Helper lemmas about the Reveal Operation. -/

theorem unveil_classes (opts : LazyloadOptions) (el : Elem) :
    (unveil opts el).classes = el.classes := by
  unfold unveil removeAttribute
  split <;> rfl

theorem unveil_nodeName (opts : LazyloadOptions) (el : Elem) :
    (unveil opts el).nodeName = el.nodeName := by
  unfold unveil removeAttribute
  split <;> rfl

theorem unveil_attrs (opts : LazyloadOptions) (el : Elem) :
    (unveil opts el).attrs =
      el.attrs.filter (fun p => !(p.1 == "data-" ++ opts.attr)) := by
  unfold unveil removeAttribute
  split <;> rfl

theorem getAttribute_unveil_marker (opts : LazyloadOptions) (el : Elem) :
    getAttribute (unveil opts el) ("data-" ++ opts.attr) = none := by
  simp [getAttribute, unveil_attrs, find?_key_filter_self]

theorem getAttribute_unveil_ne (opts : LazyloadOptions) (el : Elem) (m : String)
    (h : m ≠ "data-" ++ opts.attr) :
    getAttribute (unveil opts el) m = getAttribute el m := by
  simp [getAttribute, unveil_attrs, find?_key_filter_ne _ _ _ h]

theorem unveil_src_branch (opts : LazyloadOptions) (el : Elem)
    (h : ¬(hasAttribute el "style" = true ∧ el.styleBackgroundImage ≠ "")) :
    (unveil opts el).src = some (jsString (dataset el "lazy")) ∧
    (unveil opts el).styleBackgroundImage = el.styleBackgroundImage := by
  unfold unveil removeAttribute
  rw [if_neg h]
  exact ⟨rfl, rfl⟩

theorem unveil_bg_branch (opts : LazyloadOptions) (el : Elem)
    (h : hasAttribute el "style" = true ∧ el.styleBackgroundImage ≠ "") :
    (unveil opts el).styleBackgroundImage =
      "url(" ++ jsString (dataset el "lazy") ++ ")" ∧
    (unveil opts el).src = el.src := by
  unfold unveil removeAttribute
  rw [if_pos h]
  exact ⟨rfl, rfl⟩

/-- C2: the viewport predicate returns true exactly when the bounding
rectangle satisfies bottom > 0, right > 0, left < viewport width and
top < viewport height, where the viewport dimensions fall back to the
document root's client dimensions when the window's inner dimensions are
zero or undefined; the predicate is a pure function of the rectangle and
the viewport readings, so it has no side effects. -/
theorem isElementInViewport_iff_spec (vp : Viewport) (el : Elem) :
    isElementInViewport vp el = true ↔
      (el.rect.bottom > 0 ∧ el.rect.right > 0 ∧
       el.rect.left < viewportWidthSpec vp ∧
       el.rect.top < viewportHeightSpec vp) := by
  have hw : jsOrInt vp.innerWidth vp.clientWidth = viewportWidthSpec vp := by
    cases hvw : vp.innerWidth <;> simp [jsOrInt, viewportWidthSpec, hvw]
  have hh : jsOrInt vp.innerHeight vp.clientHeight = viewportHeightSpec vp := by
    cases hvh : vp.innerHeight <;> simp [jsOrInt, viewportHeightSpec, hvh]
  simp [isElementInViewport, hw, hh, and_assoc]

/-- C3: under the default configuration, revealing an element whose marker
value is X rewrites a present non-empty inline background image to
`url(X)`, otherwise assigns `src = X`; in both cases the `data-lazy` marker
attribute is absent afterwards. -/
theorem unveil_default_roundtrip (el : Elem) (X : String)
    (h : dataset el "lazy" = some X) :
    getAttribute (unveil defaultOptions el) "data-lazy" = none ∧
    (hasAttribute el "style" = true ∧ el.styleBackgroundImage ≠ "" →
      (unveil defaultOptions el).styleBackgroundImage = "url(" ++ X ++ ")") ∧
    (¬(hasAttribute el "style" = true ∧ el.styleBackgroundImage ≠ "") →
      (unveil defaultOptions el).src = some X) := by
  refine ⟨?_, ?_, ?_⟩
  · have e : "data-" ++ defaultOptions.attr = "data-lazy" := rfl
    have := getAttribute_unveil_marker defaultOptions el
    rwa [e] at this
  · intro hc
    rw [(unveil_bg_branch defaultOptions el hc).1, h]
    rfl
  · intro hc
    rw [(unveil_src_branch defaultOptions el hc).1, h]
    rfl

/-- Instantiation of the C3 theorem: a background element with marker value
"b.png" and an image element with marker value "a.png". -/
theorem unveil_default_roundtrip_witness :
    (dataset egBg "lazy" = some "b.png" ∧
      (getAttribute (unveil defaultOptions egBg) "data-lazy" = none ∧
       (hasAttribute egBg "style" = true ∧ egBg.styleBackgroundImage ≠ "" →
         (unveil defaultOptions egBg).styleBackgroundImage = "url(" ++ "b.png" ++ ")") ∧
       (¬(hasAttribute egBg "style" = true ∧ egBg.styleBackgroundImage ≠ "") →
         (unveil defaultOptions egBg).src = some "b.png"))) ∧
    (dataset egImg "lazy" = some "a.png" ∧
      (getAttribute (unveil defaultOptions egImg) "data-lazy" = none ∧
       (hasAttribute egImg "style" = true ∧ egImg.styleBackgroundImage ≠ "" →
         (unveil defaultOptions egImg).styleBackgroundImage = "url(" ++ "a.png" ++ ")") ∧
       (¬(hasAttribute egImg "style" = true ∧ egImg.styleBackgroundImage ≠ "") →
         (unveil defaultOptions egImg).src = some "a.png"))) :=
  ⟨⟨by decide, unveil_default_roundtrip egBg "b.png" (by decide)⟩,
   ⟨by decide, unveil_default_roundtrip egImg "a.png" (by decide)⟩⟩

/-- C4: at the failing input — an image carrying both `data-lazy="a.png"`
and the companion `data-lazy-srcset="a2.png 2x"` — the srcset-aware Reveal
Operation assigns `src` but never assigns `srcset`: the companion value is
reachable only under the camel-cased dataset key `lazySrcset`, while the
code tests for the impossible key `lazy-srcset`; the main variant of the
Reveal Operation has no srcset handling at all. -/
theorem unveilSrcset_never_sets_srcset :
    dataset egSrcset "lazySrcset" = some "a2.png 2x" ∧
    datasetHas egSrcset "lazy-srcset" = false ∧
    (unveilSrcset defaultOptions egSrcset).srcset = none ∧
    (unveilSrcset defaultOptions egSrcset).src = some "a.png" ∧
    (unveil defaultOptions egSrcset).srcset = none := by
  decide

/-- C5: with the marker attribute name configured to `custom` and an
element carrying `data-custom="a.png"`, the Reveal Operation does not copy
the configured marker's value into `src`: it reads the fixed dataset key
`lazy` (absent here, so `src` becomes "undefined") while still removing the
configured `data-custom` attribute. -/
theorem unveil_custom_reads_fixed_key :
    getAttribute egCustom "data-custom" = some "a.png" ∧
    (unveil customOptions egCustom).src = some "undefined" ∧
    (unveil customOptions egCustom).src ≠ some "a.png" ∧
    getAttribute (unveil customOptions egCustom) "data-custom" = none := by
  decide

/-! Helper lemmas for `setAttribute` and the mutation classifier. -/

theorem find?_append_of_none {α : Type} (l l' : List α) (p : α → Bool)
    (h : l.find? p = none) : (l ++ l').find? p = l'.find? p := by
  induction l with
  | nil => rfl
  | cons a l ih =>
    rw [List.find?_cons] at h
    cases hp : p a with
    | true => rw [hp] at h; exact absurd h (by simp)
    | false =>
      rw [hp] at h
      rw [List.cons_append, List.find?_cons_of_neg _ (by simp [hp])]
      exact ih h

theorem setAttribute_classes (el : Elem) (n v : String) :
    (setAttribute el n v).classes = el.classes := by
  unfold setAttribute
  split <;> rfl

theorem setAttribute_src (el : Elem) (n v : String) :
    (setAttribute el n v).src = el.src := by
  unfold setAttribute
  split <;> rfl

theorem setAttribute_bg (el : Elem) (n v : String) :
    (setAttribute el n v).styleBackgroundImage = el.styleBackgroundImage := by
  unfold setAttribute
  split <;> rfl

theorem getAttribute_setAttribute_absent_self (el : Elem) (n v : String)
    (h : hasAttribute el n = false) :
    getAttribute (setAttribute el n v) n = some v := by
  unfold setAttribute
  rw [if_neg (by simp [h])]
  have hn : el.attrs.find? (fun p => p.1 == n) = none := by
    unfold hasAttribute getAttribute at h
    cases hf : el.attrs.find? (fun p => p.1 == n) with
    | none => rfl
    | some a => rw [hf] at h; exact absurd h (by simp)
  show ((el.attrs ++ [(n, v)]).find? (fun p => p.1 == n)).map (fun p => p.2) = some v
  rw [find?_append_of_none _ _ _ hn, List.find?_cons_of_pos _ (by simp)]
  rfl

theorem find?_append_of_some {α : Type} (l l' : List α) (p : α → Bool) (a : α)
    (h : l.find? p = some a) : (l ++ l').find? p = some a := by
  induction l with
  | nil => exact absurd h (by simp)
  | cons b l ih =>
    rw [List.find?_cons] at h
    cases hp : p b with
    | true =>
      rw [hp] at h
      rw [List.cons_append, List.find?_cons_of_pos _ hp]
      exact h
    | false =>
      rw [hp] at h
      rw [List.cons_append, List.find?_cons_of_neg _ (by simp [hp])]
      exact ih h

theorem getAttribute_setAttribute_absent_ne (el : Elem) (n v m : String)
    (h : hasAttribute el n = false) (hm : m ≠ n) :
    getAttribute (setAttribute el n v) m = getAttribute el m := by
  unfold setAttribute
  rw [if_neg (by simp [h])]
  have hne : ¬((n, v).1 == m) = true := by
    simp
    exact fun e => hm e.symm
  show ((el.attrs ++ [(n, v)]).find? (fun p => p.1 == m)).map (fun p => p.2) =
    getAttribute el m
  unfold getAttribute
  have hne' : ((n, v).1 == m) = false := by
    cases hb : ((n, v).1 == m) with
    | true => exact absurd hb hne
    | false => rfl
  cases hf : el.attrs.find? (fun p => p.1 == m) with
  | none =>
    rw [find?_append_of_none _ _ _ hf]
    simp [List.find?, hne']
  | some a =>
    rw [find?_append_of_some _ _ _ _ hf]

theorem hasAttribute_unveil_ne (opts : LazyloadOptions) (el : Elem) (m : String)
    (h : m ≠ "data-" ++ opts.attr) :
    hasAttribute (unveil opts el) m = hasAttribute el m := by
  unfold hasAttribute
  rw [getAttribute_unveil_ne opts el m h]

/-- C8: when the platform lacks the intersection primitive or the mutation
primitive, the entry point takes the fallback branch: it reveals every
initially matching element via the Reveal Operation, adds the `loaded`
class to each, and adds nothing else to any class list — in particular
neither the `loading` nor the `on` class. -/
theorem fastLazyLoad_fallback (opts : LazyloadOptions) (plat : Platform)
    (initial : List Elem)
    (h : (plat.hasIntersectionObserver && plat.hasMutationObserver) = false) :
    fastLazyLoad opts plat initial =
      EntryOutcome.fallbackMode (initial.map (fallbackNode opts)) ∧
    ∀ el ∈ initial,
      (fallbackNode opts el).classes = addClass opts.loaded el.classes ∧
      opts.loaded ∈ (fallbackNode opts el).classes ∧
      getAttribute (fallbackNode opts el) ("data-" ++ opts.attr) = none ∧
      (fallbackNode opts el).src = (unveil opts el).src ∧
      (fallbackNode opts el).styleBackgroundImage = (unveil opts el).styleBackgroundImage ∧
      (∀ c, c ∈ (fallbackNode opts el).classes → c ∈ el.classes ∨ c = opts.loaded) ∧
      (opts.loading ≠ opts.loaded → opts.loading ∉ el.classes →
        opts.loading ∉ (fallbackNode opts el).classes) ∧
      (opts.onCls ≠ opts.loaded → opts.onCls ∉ el.classes →
        opts.onCls ∉ (fallbackNode opts el).classes) := by
  constructor
  · unfold fastLazyLoad
    rw [h]
    simp
  · intro el _
    have hcl : (fallbackNode opts el).classes = addClass opts.loaded el.classes := by
      show addClass opts.loaded (unveil opts el).classes = addClass opts.loaded el.classes
      rw [unveil_classes]
    refine ⟨hcl, ?_, ?_, rfl, rfl, ?_, ?_, ?_⟩
    · rw [hcl]; exact mem_addClass_self _ _
    · exact getAttribute_unveil_marker opts el
    · intro c hc
      rw [hcl] at hc
      exact (mem_addClass_iff c opts.loaded el.classes).mp hc
    · intro hne hnot hmem
      rw [hcl] at hmem
      rcases (mem_addClass_iff _ _ _).mp hmem with hm | hm
      · exact hnot hm
      · exact hne hm
    · intro hne hnot hmem
      rw [hcl] at hmem
      rcases (mem_addClass_iff _ _ _).mp hmem with hm | hm
      · exact hnot hm
      · exact hne hm

/-- Instantiation of the C8 theorem on a platform lacking the intersection
primitive, with one initially matching image element. -/
theorem fastLazyLoad_fallback_witness :
    ((Platform.mk false true).hasIntersectionObserver &&
      (Platform.mk false true).hasMutationObserver) = false ∧
    (fastLazyLoad defaultOptions ⟨false, true⟩ [egImg] =
      EntryOutcome.fallbackMode ([egImg].map (fallbackNode defaultOptions)) ∧
    ∀ el ∈ [egImg],
      (fallbackNode defaultOptions el).classes = addClass defaultOptions.loaded el.classes ∧
      defaultOptions.loaded ∈ (fallbackNode defaultOptions el).classes ∧
      getAttribute (fallbackNode defaultOptions el) ("data-" ++ defaultOptions.attr) = none ∧
      (fallbackNode defaultOptions el).src = (unveil defaultOptions el).src ∧
      (fallbackNode defaultOptions el).styleBackgroundImage = (unveil defaultOptions el).styleBackgroundImage ∧
      (∀ c, c ∈ (fallbackNode defaultOptions el).classes → c ∈ el.classes ∨ c = defaultOptions.loaded) ∧
      (defaultOptions.loading ≠ defaultOptions.loaded → defaultOptions.loading ∉ el.classes →
        defaultOptions.loading ∉ (fallbackNode defaultOptions el).classes) ∧
      (defaultOptions.onCls ≠ defaultOptions.loaded → defaultOptions.onCls ∉ el.classes →
        defaultOptions.onCls ∉ (fallbackNode defaultOptions el).classes)) :=
  ⟨by decide, fastLazyLoad_fallback defaultOptions ⟨false, true⟩ [egImg] (by decide)⟩

/-- C9: a dynamically inserted element node that matches the marker
selector and is not a script is revealed immediately when the viewport
predicate holds — the classifier answers `revealed`, never `observe`, so
the node is not added to the Watch Set — with `fetchpriority="high"` set
for `IMG`/`VIDEO` nodes that do not already carry it; when the viewport
predicate fails, the classifier answers `observe`, registering the node
into the Watch Set. -/
theorem processAddedNode_classifier (opts : LazyloadOptions) (vp : Viewport)
    (el : Elem)
    (hm : hasAttribute el ("data-" ++ opts.attr) = true)
    (hs : el.nodeName ≠ "SCRIPT")
    (hfp : "fetchpriority" ≠ "data-" ++ opts.attr) :
    (isElementInViewport vp el = true →
      ∃ el2, processAddedNode opts vp 1 el = MutResult.revealed el2 ∧
        getAttribute el2 ("data-" ++ opts.attr) = none ∧
        el2.src = (unveil opts el).src ∧
        el2.styleBackgroundImage = (unveil opts el).styleBackgroundImage ∧
        el2.classes = el.classes ∧
        ((el.nodeName = "IMG" ∨ el.nodeName = "VIDEO") →
          hasAttribute el "fetchpriority" = false →
          getAttribute el2 "fetchpriority" = some "high") ∧
        (hasAttribute el "fetchpriority" = true → el2 = unveil opts el)) ∧
    (isElementInViewport vp el = false →
      processAddedNode opts vp 1 el = MutResult.observe el) := by
  have hnn := unveil_nodeName opts el
  have hfa := hasAttribute_unveil_ne opts el "fetchpriority" hfp
  constructor
  · intro hv
    have hstep : processAddedNode opts vp 1 el = MutResult.revealed
        (if ((unveil opts el).nodeName = "IMG" ∨ (unveil opts el).nodeName = "VIDEO") ∧
            hasAttribute (unveil opts el) "fetchpriority" = false then
          setAttribute (unveil opts el) "fetchpriority" "high"
        else unveil opts el) := by
      unfold processAddedNode
      rw [if_pos ⟨rfl, hm⟩, if_neg hs, if_pos hv]
    by_cases hc : ((unveil opts el).nodeName = "IMG" ∨ (unveil opts el).nodeName = "VIDEO") ∧
        hasAttribute (unveil opts el) "fetchpriority" = false
    · rw [if_pos hc] at hstep
      refine ⟨setAttribute (unveil opts el) "fetchpriority" "high", hstep, ?_, ?_, ?_, ?_, ?_, ?_⟩
      · rw [getAttribute_setAttribute_absent_ne _ _ _ _ hc.2 (fun e => hfp e.symm)]
        exact getAttribute_unveil_marker opts el
      · exact setAttribute_src _ _ _
      · exact setAttribute_bg _ _ _
      · rw [setAttribute_classes, unveil_classes]
      · intro _ _
        exact getAttribute_setAttribute_absent_self _ _ _ hc.2
      · intro hhave
        rw [hfa] at hc
        rw [hc.2] at hhave
        exact absurd hhave (by simp)
    · rw [if_neg hc] at hstep
      refine ⟨unveil opts el, hstep, ?_, rfl, rfl, unveil_classes opts el, ?_, fun _ => rfl⟩
      · exact getAttribute_unveil_marker opts el
      · intro himg hno
        exact absurd ⟨by rw [hnn]; exact himg, by rw [hfa]; exact hno⟩ hc
  · intro hv
    unfold processAddedNode
    rw [if_pos ⟨rfl, hm⟩, if_neg hs, if_neg (by simp [hv])]

/-- Instantiation of the C9 theorem at an on-screen image inserted
dynamically. -/
theorem processAddedNode_classifier_witness :
    hasAttribute egImg ("data-" ++ defaultOptions.attr) = true ∧
    egImg.nodeName ≠ "SCRIPT" ∧
    ("fetchpriority" ≠ "data-" ++ defaultOptions.attr) ∧
    ((isElementInViewport egViewport egImg = true →
      ∃ el2, processAddedNode defaultOptions egViewport 1 egImg = MutResult.revealed el2 ∧
        getAttribute el2 ("data-" ++ defaultOptions.attr) = none ∧
        el2.src = (unveil defaultOptions egImg).src ∧
        el2.styleBackgroundImage = (unveil defaultOptions egImg).styleBackgroundImage ∧
        el2.classes = egImg.classes ∧
        ((egImg.nodeName = "IMG" ∨ egImg.nodeName = "VIDEO") →
          hasAttribute egImg "fetchpriority" = false →
          getAttribute el2 "fetchpriority" = some "high") ∧
        (hasAttribute egImg "fetchpriority" = true → el2 = unveil defaultOptions egImg)) ∧
    (isElementInViewport egViewport egImg = false →
      processAddedNode defaultOptions egViewport 1 egImg = MutResult.observe egImg)) :=
  ⟨by decide, by decide, by decide,
   processAddedNode_classifier defaultOptions egViewport egImg (by decide) (by decide) (by decide)⟩

/-! Helper lemmas for the script deferral procedure. -/

theorem find?_filter_key_same (l : List (String × String)) (k : String) :
    (l.filter (fun p => p.1 == k)).find? (fun p => p.1 == k) =
    l.find? (fun p => p.1 == k) := by
  induction l with
  | nil => rfl
  | cons a l ih =>
    by_cases ha : a.1 = k
    · rw [List.filter_cons, if_pos (by simp [ha]),
        List.find?_cons_of_pos _ (by simp [ha]), List.find?_cons_of_pos _ (by simp [ha])]
    · rw [List.filter_cons, if_neg (by simp [ha]), List.find?_cons_of_neg _ (by simp [ha]), ih]

theorem find?_filter_key_other (l : List (String × String)) (k m : String)
    (h : m ≠ k) :
    (l.filter (fun p => p.1 == k)).find? (fun p => p.1 == m) = none := by
  rw [List.find?_eq_none]
  intro x hx
  have hk := (List.mem_filter.mp hx).2
  simp only [beq_iff_eq] at hk
  simp [hk]
  exact fun e => h e.symm

theorem lazyscriptNew_attrs_only_marker (opts : LazyloadOptions) (node : Elem)
    (nm : String) :
    getAttribute (lazyscriptNew opts node) nm =
      if nm = "data-" ++ opts.attr then getAttribute node nm else none := by
  by_cases h : nm = "data-" ++ opts.attr
  · rw [if_pos h, h]
    show ((node.attrs.filter (fun p => p.1 == "data-" ++ opts.attr)).find?
      (fun p => p.1 == "data-" ++ opts.attr)).map (fun p => p.2) = _
    rw [find?_filter_key_same]
    rfl
  · rw [if_neg h]
    show ((node.attrs.filter (fun p => p.1 == "data-" ++ opts.attr)).find?
      (fun p => p.1 == nm)).map (fun p => p.2) = none
    rw [find?_filter_key_other _ _ _ h]
    rfl

theorem lazyscriptFire_replace (opts : LazyloadOptions) (node : Elem)
    (pre post : List Elem) (hpre : node ∉ pre) :
    lazyscriptFire opts node (pre ++ node :: post) =
      pre ++ lazyscriptNew opts node :: post := by
  unfold lazyscriptFire
  induction pre with
  | nil =>
    show removeNode (insertBeforeList (node :: post) node (lazyscriptNew opts node)) node =
      lazyscriptNew opts node :: post
    rw [insertBeforeList, if_pos rfl]
    by_cases hn : lazyscriptNew opts node = node
    · rw [removeNode, if_pos hn, hn]
    · rw [removeNode, if_neg hn, removeNode, if_pos rfl]
  | cons a pre ih =>
    have ha : ¬(a = node) := fun e => hpre (e ▸ List.mem_cons_self a pre)
    have hp : node ∉ pre := fun hh => hpre (List.mem_cons_of_mem a hh)
    show removeNode (insertBeforeList (a :: (pre ++ node :: post)) node (lazyscriptNew opts node)) node =
      a :: (pre ++ lazyscriptNew opts node :: post)
    rw [insertBeforeList, if_neg ha, removeNode, if_neg ha, ih hp]

/-- C7 counterexample: a `<script data-lazy="c.js">` present at startup is
not handed to the script deferral procedure.  The startup enumeration of
the observer branch registers it with the IntersectionObserver (it enters
the Watch Set) and records no window-load script registration, so when the
window `load` event fires nothing happens: the original script node is
still in its parent's child list, unreplaced. -/
theorem startup_script_not_deferred :
    egScript.nodeName = "SCRIPT" ∧
    hasAttribute egScript "data-lazy" = true ∧
    fastLazyLoad defaultOptions ⟨true, true⟩ [egScript] =
      EntryOutcome.observerMode (startupObserve [egScript]) ∧
    (startupObserve [egScript]).watched = [egScript] ∧
    (startupObserve [egScript]).scriptRegs = [] ∧
    runWindowLoad defaultOptions (startupObserve [egScript]).scriptRegs [egScript] =
      [egScript] ∧
    egScript ∈ runWindowLoad defaultOptions (startupObserve [egScript]).scriptRegs
      [egScript] := by
  decide

/-- C7 (amended): a marker-bearing script element routed through the
Mutation Coordinator is handed to the script deferral procedure
(`lazyscriptReg`, leaving the node untouched until the window `load` event
fires); when the registered handler fires, the parent's child list has the
original node replaced, at its own position, by a newly constructed script
element whose `src` is the pending URL and which carries only the marker
attribute copied from the original. -/
theorem lazyscript_dynamic_script (vp : Viewport) (node : Elem) (X : String)
    (pre post : List Elem)
    (hscript : node.nodeName = "SCRIPT")
    (hmarker : hasAttribute node "data-lazy" = true)
    (hlazy : dataset node "lazy" = some X)
    (hpre : node ∉ pre) :
    processAddedNode defaultOptions vp 1 node = MutResult.lazyscriptReg node ∧
    (lazyscriptNew defaultOptions node).nodeName = "SCRIPT" ∧
    (lazyscriptNew defaultOptions node).src = some X ∧
    (∀ nm, getAttribute (lazyscriptNew defaultOptions node) nm =
      if nm = "data-lazy" then getAttribute node nm else none) ∧
    lazyscriptFire defaultOptions node (pre ++ node :: post) =
      pre ++ lazyscriptNew defaultOptions node :: post := by
  refine ⟨?_, rfl, ?_, ?_, lazyscriptFire_replace defaultOptions node pre post hpre⟩
  · unfold processAddedNode
    rw [if_pos ⟨rfl, hmarker⟩, if_pos hscript]
  · show some (jsString (dataset node "lazy")) = some X
    rw [hlazy]
    rfl
  · intro nm
    have e : "data-" ++ defaultOptions.attr = "data-lazy" := rfl
    have := lazyscriptNew_attrs_only_marker defaultOptions node nm
    rwa [e] at this

/-- Instantiation of the amended C7 theorem: a dynamically inserted
`<script data-lazy="c.js">` whose parent has one sibling on each side. -/
theorem lazyscript_dynamic_script_witness :
    (egScript.nodeName = "SCRIPT" ∧
     hasAttribute egScript "data-lazy" = true ∧
     dataset egScript "lazy" = some "c.js" ∧
     egScript ∉ [egImg]) ∧
    (processAddedNode defaultOptions egViewport 1 egScript = MutResult.lazyscriptReg egScript ∧
     (lazyscriptNew defaultOptions egScript).nodeName = "SCRIPT" ∧
     (lazyscriptNew defaultOptions egScript).src = some "c.js" ∧
     (∀ nm, getAttribute (lazyscriptNew defaultOptions egScript) nm =
       if nm = "data-lazy" then getAttribute egScript nm else none) ∧
     lazyscriptFire defaultOptions egScript ([egImg] ++ egScript :: [egBg]) =
       [egImg] ++ lazyscriptNew defaultOptions egScript :: [egBg]) :=
  ⟨⟨by decide, by decide, by decide, by decide⟩,
   lazyscript_dynamic_script egViewport egScript "c.js" [egImg] [egBg]
     (by decide) (by decide) (by decide) (by decide)⟩

/-! Helper lemmas for the intersection callback state machine. -/

theorem stepEntryT_not_inter (opts : LazyloadOptions) (e : Entry) (s : SysState)
    (hi : e.isIntersecting = false) : stepEntryT opts e s = (s, []) := by
  unfold stepEntryT
  rw [if_neg (by simp [hi])]

theorem stepEntryT_trace_inter (opts : LazyloadOptions) (e : Entry) (s : SysState)
    (hi : e.isIntersecting = true) :
    (stepEntryT opts e s).2 = claimSequence opts e.target := by
  unfold stepEntryT claimSequence
  rw [if_pos hi]

theorem stepEntryT_elems_target (opts : LazyloadOptions) (e : Entry) (s : SysState)
    (hi : e.isIntersecting = true) :
    (stepEntryT opts e s).1.elems e.target =
      { el := unveil opts { (s.elems e.target).el with
            classes := addClass opts.loading (addClass opts.onCls (s.elems e.target).el.classes) },
        loadL := (s.elems e.target).loadL ++
          [[ClassOp.add opts.loaded, ClassOp.remove opts.loading]],
        errorL := (s.elems e.target).errorL ++ [[ClassOp.add opts.failed]],
        revealedCount := (s.elems e.target).revealedCount + 1,
        unobsCount := (s.elems e.target).unobsCount + 1 } := by
  unfold stepEntryT stepUnobserve stepReveal stepAddClass stepAddLoadListener
    stepAddErrorListener modifyEl
  rw [if_pos hi]
  simp

theorem stepEntryT_watched_inter (opts : LazyloadOptions) (e : Entry) (s : SysState)
    (hi : e.isIntersecting = true) :
    (stepEntryT opts e s).1.watched =
      s.watched.filter (fun i => !(i == e.target)) := by
  unfold stepEntryT stepUnobserve stepReveal stepAddClass stepAddLoadListener
    stepAddErrorListener modifyEl
  rw [if_pos hi]

theorem stepEntryT_elems_ne (opts : LazyloadOptions) (e : Entry) (s : SysState)
    (t : Nat) (h : e.target ≠ t) :
    (stepEntryT opts e s).1.elems t = s.elems t := by
  cases hi : e.isIntersecting with
  | false => rw [stepEntryT_not_inter opts e s hi]
  | true =>
    have h' : ¬(t = e.target) := fun e' => h e'.symm
    unfold stepEntryT stepUnobserve stepReveal stepAddClass stepAddLoadListener
      stepAddErrorListener modifyEl
    rw [if_pos hi]
    simp [h']

theorem revOf_stepEntry_target (opts : LazyloadOptions) (e : Entry) (s : SysState)
    (hi : e.isIntersecting = true) :
    revOf (stepEntry opts e s) e.target = revOf s e.target + 1 := by
  unfold revOf stepEntry
  rw [stepEntryT_elems_target opts e s hi]

theorem unobsOf_stepEntry_target (opts : LazyloadOptions) (e : Entry) (s : SysState)
    (hi : e.isIntersecting = true) :
    unobsOf (stepEntry opts e s) e.target = unobsOf s e.target + 1 := by
  unfold unobsOf stepEntry
  rw [stepEntryT_elems_target opts e s hi]

theorem watched_stepEntry_target (opts : LazyloadOptions) (e : Entry) (s : SysState)
    (hi : e.isIntersecting = true) :
    e.target ∉ (stepEntry opts e s).watched := by
  unfold stepEntry
  rw [stepEntryT_watched_inter opts e s hi]
  simp [List.mem_filter]

theorem revOf_stepEntry_ne (opts : LazyloadOptions) (e : Entry) (s : SysState)
    (t : Nat) (h : e.target ≠ t) :
    revOf (stepEntry opts e s) t = revOf s t := by
  unfold revOf stepEntry
  rw [stepEntryT_elems_ne opts e s t h]

theorem unobsOf_stepEntry_ne (opts : LazyloadOptions) (e : Entry) (s : SysState)
    (t : Nat) (h : e.target ≠ t) :
    unobsOf (stepEntry opts e s) t = unobsOf s t := by
  unfold unobsOf stepEntry
  rw [stepEntryT_elems_ne opts e s t h]

theorem watched_stepEntry_ne (opts : LazyloadOptions) (e : Entry) (s : SysState)
    (t : Nat) (h : e.target ≠ t) :
    t ∈ (stepEntry opts e s).watched ↔ t ∈ s.watched := by
  cases hi : e.isIntersecting with
  | false =>
    unfold stepEntry
    rw [stepEntryT_not_inter opts e s hi]
  | true =>
    have h' : t ≠ e.target := fun e' => h e'.symm
    unfold stepEntry
    rw [stepEntryT_watched_inter opts e s hi]
    simp [List.mem_filter, h']

theorem stepEntry_not_inter (opts : LazyloadOptions) (e : Entry) (s : SysState)
    (hi : e.isIntersecting = false) : stepEntry opts e s = s := by
  unfold stepEntry
  rw [stepEntryT_not_inter opts e s hi]

theorem validDelivery_cons (opts : LazyloadOptions) (s : SysState) (e : Entry)
    (rest : List Entry) :
    validDelivery opts s (e :: rest) = true ↔
      (e.isIntersecting = true → e.target ∈ s.watched) ∧
      validDelivery opts (stepEntry opts e s) rest = true := by
  have hunf : validDelivery opts s (e :: rest) =
      ((!e.isIntersecting || s.watched.contains e.target) &&
        validDelivery opts (stepEntry opts e s) rest) := rfl
  rw [hunf, Bool.and_eq_true, Bool.or_eq_true]
  constructor
  · rintro ⟨h1, h2⟩
    refine ⟨?_, h2⟩
    intro hi
    rcases h1 with h1 | h1
    · rw [hi] at h1
      exact absurd h1 (by simp)
    · simpa using h1
  · rintro ⟨h1, h2⟩
    refine ⟨?_, h2⟩
    cases hi : e.isIntersecting with
    | false => left; rfl
    | true => right; simpa using h1 hi

/-- C6: the intersection callback performs, for every intersecting entry of
the delivered batch and in this order: add the `on` class, register a load
listener whose body adds `loaded` and removes `loading`, register an error
listener whose body adds `failed`, add the `loading` class, invoke the
Reveal Operation, then unobserve the target; non-intersecting entries
contribute nothing. -/
theorem lazyLoadBackgrounds_trace (opts : LazyloadOptions) (entries : List Entry)
    (s : SysState) :
    (lazyLoadBackgrounds opts entries s).2 =
      (entries.map (fun e =>
        if e.isIntersecting = true then claimSequence opts e.target else [])).flatten := by
  induction entries generalizing s with
  | nil => rfl
  | cons e rest ih =>
    show (stepEntryT opts e s).2 ++
        (lazyLoadBackgrounds opts rest (stepEntryT opts e s).1).2 = _
    rw [ih, List.map_cons, List.flatten_cons]
    congr 1
    cases hi : e.isIntersecting with
    | true => rw [if_pos rfl, stepEntryT_trace_inter opts e s hi]
    | false => rw [if_neg (by simp), stepEntryT_not_inter opts e s hi]

/-- C10: the error listener registered at reveal time adds only the
`failed` class.  After an intersecting entry is handled, the target holds
the `loading` and `on` classes and a newly registered error listener whose
body is exactly "add `failed`"; firing that listener yields a class list
that still contains `loading` (and `on`) alongside `failed` — the failure
path never removes `loading`. -/
theorem errorListener_keeps_loading (opts : LazyloadOptions) (s : SysState) (t : Nat) :
    ((stepEntryT opts ⟨true, t⟩ s).1.elems t).errorL =
      (s.elems t).errorL ++ [[ClassOp.add opts.failed]] ∧
    opts.loading ∈ ((stepEntryT opts ⟨true, t⟩ s).1.elems t).el.classes ∧
    opts.onCls ∈ ((stepEntryT opts ⟨true, t⟩ s).1.elems t).el.classes ∧
    (applyListener [ClassOp.add opts.failed]
        ((stepEntryT opts ⟨true, t⟩ s).1.elems t).el).classes =
      addClass opts.failed ((stepEntryT opts ⟨true, t⟩ s).1.elems t).el.classes ∧
    opts.failed ∈ (applyListener [ClassOp.add opts.failed]
        ((stepEntryT opts ⟨true, t⟩ s).1.elems t).el).classes ∧
    opts.loading ∈ (applyListener [ClassOp.add opts.failed]
        ((stepEntryT opts ⟨true, t⟩ s).1.elems t).el).classes ∧
    opts.onCls ∈ (applyListener [ClassOp.add opts.failed]
        ((stepEntryT opts ⟨true, t⟩ s).1.elems t).el).classes := by
  have hT := stepEntryT_elems_target opts ⟨true, t⟩ s rfl
  rw [hT]
  have hcl : (unveil opts { (s.elems t).el with
      classes := addClass opts.loading (addClass opts.onCls (s.elems t).el.classes) }).classes =
      addClass opts.loading (addClass opts.onCls (s.elems t).el.classes) :=
    unveil_classes opts _
  have hload : opts.loading ∈ (unveil opts { (s.elems t).el with
      classes := addClass opts.loading (addClass opts.onCls (s.elems t).el.classes) }).classes := by
    rw [hcl]
    exact mem_addClass_self _ _
  have hon : opts.onCls ∈ (unveil opts { (s.elems t).el with
      classes := addClass opts.loading (addClass opts.onCls (s.elems t).el.classes) }).classes := by
    rw [hcl]
    exact mem_addClass_of_mem _ _ _ (mem_addClass_self _ _)
  refine ⟨rfl, hload, hon, rfl, ?_, ?_, ?_⟩
  · exact mem_addClass_self _ _
  · exact mem_addClass_of_mem _ _ _ hload
  · exact mem_addClass_of_mem _ _ _ hon

theorem run_cons_state (opts : LazyloadOptions) (e : Entry) (rest : List Entry)
    (s : SysState) :
    (lazyLoadBackgrounds opts (e :: rest) s).1 =
      (lazyLoadBackgrounds opts rest (stepEntry opts e s)).1 := rfl

theorem run_frozen (opts : LazyloadOptions) (t : Nat) (entries : List Entry) :
    ∀ s : SysState, validDelivery opts s entries = true → t ∉ s.watched →
      revOf ((lazyLoadBackgrounds opts entries s).1) t = revOf s t ∧
      unobsOf ((lazyLoadBackgrounds opts entries s).1) t = unobsOf s t ∧
      t ∉ ((lazyLoadBackgrounds opts entries s).1).watched := by
  induction entries with
  | nil => intro s _ hw; exact ⟨rfl, rfl, hw⟩
  | cons e rest ih =>
    intro s hv hw
    obtain ⟨hhead, htail⟩ := (validDelivery_cons opts s e rest).mp hv
    rw [run_cons_state]
    cases hi : e.isIntersecting with
    | false =>
      rw [stepEntry_not_inter opts e s hi] at htail ⊢
      exact ih s htail hw
    | true =>
      have hne : e.target ≠ t := fun heq => hw (heq ▸ hhead hi)
      have hw' : t ∉ (stepEntry opts e s).watched :=
        fun hm => hw ((watched_stepEntry_ne opts e s t hne).mp hm)
      obtain ⟨i1, i2, i3⟩ := ih (stepEntry opts e s) htail hw'
      exact ⟨by rw [i1, revOf_stepEntry_ne opts e s t hne],
        by rw [i2, unobsOf_stepEntry_ne opts e s t hne], i3⟩

theorem run_watchInv (opts : LazyloadOptions) (t : Nat) (entries : List Entry) :
    ∀ s : SysState, validDelivery opts s entries = true → WatchInv s t →
      WatchInv ((lazyLoadBackgrounds opts entries s).1) t := by
  induction entries with
  | nil => intro s _ h; exact h
  | cons e rest ih =>
    intro s hv hinv
    obtain ⟨hhead, htail⟩ := (validDelivery_cons opts s e rest).mp hv
    rw [run_cons_state]
    apply ih _ htail
    cases hi : e.isIntersecting with
    | false =>
      rw [stepEntry_not_inter opts e s hi]
      exact hinv
    | true =>
      by_cases ht : e.target = t
      · rcases hinv with ⟨hw, h0, hu⟩ | ⟨hw, _, _⟩
        · right
          refine ⟨ht ▸ watched_stepEntry_target opts e s hi, ?_, ?_⟩
          · rw [← ht, revOf_stepEntry_target opts e s hi, ht, h0]
          · rw [← ht, unobsOf_stepEntry_target opts e s hi, ht, hu]
        · exact absurd (ht ▸ hhead hi) hw
      · rcases hinv with ⟨hw, h0, hu⟩ | ⟨hw, h1, hu⟩
        · exact Or.inl ⟨(watched_stepEntry_ne opts e s t ht).mpr hw,
            by rw [revOf_stepEntry_ne opts e s t ht]; exact h0,
            by rw [unobsOf_stepEntry_ne opts e s t ht]; exact hu⟩
        · exact Or.inr ⟨fun hm => hw ((watched_stepEntry_ne opts e s t ht).mp hm),
            by rw [revOf_stepEntry_ne opts e s t ht]; exact h1,
            by rw [unobsOf_stepEntry_ne opts e s t ht]; exact hu⟩

theorem run_delivered (opts : LazyloadOptions) (t : Nat) (entries : List Entry) :
    ∀ s : SysState, validDelivery opts s entries = true →
      t ∈ s.watched → revOf s t = 0 → unobsOf s t = 0 →
      (∃ e, e ∈ entries ∧ e.isIntersecting = true ∧ e.target = t) →
      revOf ((lazyLoadBackgrounds opts entries s).1) t = 1 ∧
      unobsOf ((lazyLoadBackgrounds opts entries s).1) t = 1 ∧
      t ∉ ((lazyLoadBackgrounds opts entries s).1).watched := by
  induction entries with
  | nil =>
    intro s _ _ _ _ hex
    simp at hex
  | cons e rest ih =>
    intro s hv hw h0 hu hex
    obtain ⟨hhead, htail⟩ := (validDelivery_cons opts s e rest).mp hv
    rw [run_cons_state]
    by_cases het : e.isIntersecting = true ∧ e.target = t
    · have hw' : t ∉ (stepEntry opts e s).watched :=
        het.2 ▸ watched_stepEntry_target opts e s het.1
      have h1 : revOf (stepEntry opts e s) t = 1 := by
        rw [← het.2, revOf_stepEntry_target opts e s het.1, het.2, h0]
      have h2 : unobsOf (stepEntry opts e s) t = 1 := by
        rw [← het.2, unobsOf_stepEntry_target opts e s het.1, het.2, hu]
      obtain ⟨f1, f2, f3⟩ := run_frozen opts t rest (stepEntry opts e s) htail hw'
      exact ⟨by rw [f1, h1], by rw [f2, h2], f3⟩
    · have hex' : ∃ e2, e2 ∈ rest ∧ e2.isIntersecting = true ∧ e2.target = t := by
        rcases hex with ⟨e2, he2, hprop⟩
        rcases List.mem_cons.mp he2 with heq | hmem
        · exact absurd (heq ▸ hprop) het
        · exact ⟨e2, hmem, hprop⟩
      cases hi : e.isIntersecting with
      | false =>
        rw [stepEntry_not_inter opts e s hi] at htail ⊢
        exact ih s htail hw h0 hu hex'
      | true =>
        have hne : e.target ≠ t := fun heq => het ⟨hi, heq⟩
        exact ih (stepEntry opts e s) htail
          ((watched_stepEntry_ne opts e s t hne).mpr hw)
          (by rw [revOf_stepEntry_ne opts e s t hne]; exact h0)
          (by rw [unobsOf_stepEntry_ne opts e s t hne]; exact hu) hex'

/-- C1: for a watched element with no prior reveal, over any delivered
batch in which intersecting entries target only currently watched elements,
the handler reveals the element at most once and issues at most one
unobserve call, the reveal count always equals the unobserve count (reveal
and watch-set removal happen in the same per-entry invocation), an element
still watched afterwards was never revealed, and if the batch does deliver
an intersecting entry for the element then it ends revealed exactly once,
unobserved exactly once, and outside the Watch Set. -/
theorem lazyLoadBackgrounds_watchSet_invariant (opts : LazyloadOptions)
    (entries : List Entry) (s : SysState) (t : Nat)
    (hv : validDelivery opts s entries = true)
    (hw : t ∈ s.watched) (h0 : revOf s t = 0) (hu : unobsOf s t = 0) :
    revOf ((lazyLoadBackgrounds opts entries s).1) t ≤ 1 ∧
    unobsOf ((lazyLoadBackgrounds opts entries s).1) t ≤ 1 ∧
    revOf ((lazyLoadBackgrounds opts entries s).1) t =
      unobsOf ((lazyLoadBackgrounds opts entries s).1) t ∧
    (t ∈ ((lazyLoadBackgrounds opts entries s).1).watched →
      revOf ((lazyLoadBackgrounds opts entries s).1) t = 0) ∧
    ((∃ e, e ∈ entries ∧ e.isIntersecting = true ∧ e.target = t) →
      revOf ((lazyLoadBackgrounds opts entries s).1) t = 1 ∧
      unobsOf ((lazyLoadBackgrounds opts entries s).1) t = 1 ∧
      t ∉ ((lazyLoadBackgrounds opts entries s).1).watched) := by
  have hdel := run_delivered opts t entries s hv hw h0 hu
  rcases run_watchInv opts t entries s hv (Or.inl ⟨hw, h0, hu⟩) with
    ⟨_, h0', hu'⟩ | ⟨hw', h1', hu'⟩
  · exact ⟨by rw [h0']; exact Nat.zero_le 1, by rw [hu']; exact Nat.zero_le 1,
      by rw [h0', hu'], fun _ => h0', hdel⟩
  · exact ⟨by rw [h1'], by rw [hu'], by rw [h1', hu'],
      fun hm => absurd hm hw', hdel⟩

/-- Instantiation of the C1 theorem: a single-element watch set receiving
one intersecting entry. -/
theorem lazyLoadBackgrounds_watchSet_invariant_witness :
    validDelivery defaultOptions egSys [Entry.mk true 0] = true ∧
    0 ∈ egSys.watched ∧ revOf egSys 0 = 0 ∧ unobsOf egSys 0 = 0 ∧
    (revOf ((lazyLoadBackgrounds defaultOptions [Entry.mk true 0] egSys).1) 0 ≤ 1 ∧
     unobsOf ((lazyLoadBackgrounds defaultOptions [Entry.mk true 0] egSys).1) 0 ≤ 1 ∧
     revOf ((lazyLoadBackgrounds defaultOptions [Entry.mk true 0] egSys).1) 0 =
       unobsOf ((lazyLoadBackgrounds defaultOptions [Entry.mk true 0] egSys).1) 0 ∧
     (0 ∈ ((lazyLoadBackgrounds defaultOptions [Entry.mk true 0] egSys).1).watched →
       revOf ((lazyLoadBackgrounds defaultOptions [Entry.mk true 0] egSys).1) 0 = 0) ∧
     ((∃ e, e ∈ [Entry.mk true 0] ∧ e.isIntersecting = true ∧ e.target = 0) →
       revOf ((lazyLoadBackgrounds defaultOptions [Entry.mk true 0] egSys).1) 0 = 1 ∧
       unobsOf ((lazyLoadBackgrounds defaultOptions [Entry.mk true 0] egSys).1) 0 = 1 ∧
       0 ∉ ((lazyLoadBackgrounds defaultOptions [Entry.mk true 0] egSys).1).watched)) :=
  ⟨by decide, by decide, by decide, by decide,
   lazyLoadBackgrounds_watchSet_invariant defaultOptions [Entry.mk true 0] egSys 0
     (by decide) (by decide) (by decide) (by decide)⟩

end FastLazyload
